import Mathlib

/-!
Verification development for the gyroskop Telegram bot
(repository tionis/gyroskop).

The repository holds two historical variants of the bot:
the fixed two-option ("Fleisch"/"Vegetarisch") state machine of
`internal/bot/bot.go`, and the generalized option-list layer of
`internal/database/database.go` (quantities maps, `FuzzyMatchOption`).
Both are embedded below where a claim needs them.

Conventions of the embedding:
* Machine integers (`int`, `int64`) are modelled as `Int`;
  overflow of `strconv.Atoi` is not modelled (inputs of interest are tiny).
* Instants (`time.Time`) are modelled as `Nat`: seconds since an epoch
  midnight of the fixed civil timezone Europe/Berlin. Daylight-saving
  transitions are not modelled (a constant UTC offset is assumed), so a
  civil day is exactly 86400 seconds.
* Strings are Lean `String`s; `unicode.ToLower` is modelled by
  `Char.toLower` (ASCII case folding), which agrees with Go on the
  ASCII inputs the theorems use.
* Fallible store operations (PostgreSQL calls) are modelled by explicit
  Boolean failure oracles passed to the handler: `true` means the call
  returned an error, in which case the handler sees an error exactly as
  in the source.
* The per-group cache `activeGyroskops` is modelled for a single group
  (`GroupState.cache`); distinct groups never share cache entries or
  store rows in the source, so every per-group claim is decided by the
  single-group projection.
-/

namespace GyroskopBot

/-! ## Fuzzy option matcher (`internal/database/database.go`, FuzzyMatchOption)

`github.com/lithammer/fuzzysearch/fuzzy.FindFold` keeps, in haystack
order, the candidates of which the needle is a case-insensitive
subsequence; `fuzzy.MatchFold` scans the target greedily for each
successive rune of the source. -/

/-- Whitespace as recognized by `strings.TrimSpace` (ASCII part of
`unicode.IsSpace`). -/
def isSpace (c : Char) : Bool :=
  c = ' ' ∨ c = '\t' ∨ c = '\n' ∨ c = '\r'

/-- `strings.TrimSpace` on the character list of a string. -/
def trimChars (cs : List Char) : List Char :=
  ((cs.dropWhile isSpace).reverse.dropWhile isSpace).reverse

/-- `strings.Split` on a single separator character: `splitOn sep cs`
cuts `cs` at every occurrence of `sep`, yielding at least one piece. -/
def splitOn (sep : Char) : List Char → List (List Char)
  | [] => [[]]
  | c :: rest =>
    if c = sep then [] :: splitOn sep rest
    else
      match splitOn sep rest with
      | f :: t => (c :: f) :: t
      | [] => [[c]]

/-- Greedy case-folded subsequence test, the core of `fuzzy.MatchFold`:
each successive source character is matched against the first
case-insensitively equal target character, and the scan resumes after it.
The byte-length shortcuts of the library do not change the result on
ASCII data and are omitted. -/
def matchFold : List Char → List Char → Bool
  | [], _ => true
  | _ :: _, [] => false
  | c :: cs, d :: ds =>
    if c.toLower = d.toLower then matchFold cs ds else matchFold (c :: cs) ds

/-- `fuzzy.FindFold`: every option matched by `matchFold`, in list order. -/
def findFold (needle : List Char) (haystack : List String) : List String :=
  haystack.filter fun h => matchFold needle h.toList

/-- `FuzzyMatchOption` from `internal/database/database.go`: trim the
input, return `("", false)` on empty input or when `FindFold` finds
nothing, else the first `FindFold` result with `true`. -/
def FuzzyMatchOption (input : String) (options : List String) : String × Bool :=
  if (trimChars input.toList).isEmpty then ("", false)
  else
    match findFold (trimChars input.toList) options with
    | [] => ("", false)
    | r :: _ => (r, true)

/-! ## Number and deadline parsing (`internal/bot/bot.go`) -/

/-- Decimal digit run to a number; `none` when the run is empty or holds
a non-digit, as `strconv.Atoi` fails there. -/
def digitsToNat : List Char → Option Nat
  | [] => none
  | cs =>
    if cs.all Char.isDigit then
      some (cs.foldl (fun acc c => acc * 10 + (c.toNat - 48)) 0)
    else none

/-- `strconv.Atoi`: optional sign followed by at least one digit.
Overflow of the 64-bit range is not modelled. -/
def atoi (chars : List Char) : Option Int :=
  match chars with
  | '+' :: rest => (digitsToNat rest).map fun n => (n : Int)
  | '-' :: rest => (digitsToNat rest).map fun n => -(n : Int)
  | _ => (digitsToNat chars).map fun n => (n : Int)

/-- The `H:MM` / `HH:MM` branch of `parseDeadline` (bot.go lines
399-421): combine today's civil date with the given wall-clock time;
if that instant is before `now`, add one civil day. -/
def parseDeadlineHM (h m : Nat) (now : Nat) : Nat :=
  if now / 86400 * 86400 + h * 3600 + m * 60 < now then
    now / 86400 * 86400 + h * 3600 + m * 60 + 86400
  else now / 86400 * 86400 + h * 3600 + m * 60

/-- The shape test of the regex `^\d{1,2}:\d{2}$` together with the
range check of `time.ParseInLocation("15:04", ...)`: 1-2 digit hour
below 24, exactly 2-digit minute below 60. -/
def parseTimeHM? (chars : List Char) : Option (Nat × Nat) :=
  match chars with
  | [h1, ':', m1, m2] =>
    if h1.isDigit ∧ m1.isDigit ∧ m2.isDigit then
      let h := h1.toNat - 48
      let m := (m1.toNat - 48) * 10 + (m2.toNat - 48)
      if h < 24 ∧ m < 60 then some (h, m) else none
    else none
  | [h1, h2, ':', m1, m2] =>
    if h1.isDigit ∧ h2.isDigit ∧ m1.isDigit ∧ m2.isDigit then
      let h := (h1.toNat - 48) * 10 + (h2.toNat - 48)
      let m := (m1.toNat - 48) * 10 + (m2.toNat - 48)
      if h < 24 ∧ m < 60 then some (h, m) else none
    else none
  | _ => none

/-- `parseDeadline` from `internal/bot/bot.go`: empty input gives
`now + 15min`; `<integer><unit>` with unit in min/m/h/hour/hours gives
`now + integer*unit` when positive; `H:MM`/`HH:MM` goes through
`parseDeadlineHM`; everything else is an error (`none`). -/
def parseDeadline (input : String) (now : Nat) : Option Nat :=
  let chars := trimChars input.toList
  if chars = [] then some (now + 15 * 60)
  else
    let digits := chars.takeWhile Char.isDigit
    let unit := chars.dropWhile Char.isDigit
    if digits ≠ [] ∧ (unit = "min".toList ∨ unit = "m".toList ∨ unit = "h".toList ∨
        unit = "hour".toList ∨ unit = "hours".toList) then
      match digitsToNat digits with
      | none => none
      | some value =>
        let duration :=
          if unit = "min".toList ∨ unit = "m".toList then value * 60 else value * 3600
        if duration = 0 then none else some (now + duration)
    else
      match parseTimeHM? chars with
      | some (h, m) => some (parseDeadlineHM h m now)
      | none => none

/-! ## Data model -/

/-- A window row (`database.Gyroskop`); `chatID` and `createdAt` are
dropped by the single-group projection. -/
structure Gyroskop where
  id : Nat
  createdBy : Int
  messageID : Nat
  name : String
  foodOptions : List String
  deadline : Nat
  isOpen : Bool
deriving DecidableEq, Repr

/-- An order row of the two-option variant (`bot.go`), keyed by user
within the single modelled window. -/
structure Order where
  userID : Int
  username : String
  firstName : String
  lastName : String
  quantityMeat : Int
  quantityVeggie : Int
deriving DecidableEq, Repr

/-- The row filter of `GetOrdersByGyroskop`
(`internal/database/database.go` lines 282-293), specialized to the two
options of `bot.go`: rows with no positive quantity are dropped. -/
def ordersWithQuantity (orders : List Order) : List Order :=
  orders.filter fun o => decide (0 < o.quantityMeat ∨ 0 < o.quantityVeggie)

/-- `AddOrUpdateOrder`: SQL upsert on the `(gyroskop_id, user_id)` key,
replacing the display fields and both quantities. -/
def addOrUpdateOrder (orders : List Order) (userID : Int) (un fn ln : String)
    (qm qv : Int) : List Order :=
  if orders.any fun o => decide (o.userID = userID) then
    orders.map fun o =>
      if o.userID = userID then ⟨userID, un, fn, ln, qm, qv⟩ else o
  else orders ++ [⟨userID, un, fn, ln, qm, qv⟩]

/-- `RemoveOrder`: sets the row's quantities to the empty mapping (all
zero); the row itself persists, and a missing row is left missing. -/
def removeOrder (orders : List Order) (userID : Int) : List Order :=
  orders.map fun o =>
    if o.userID = userID then
      { o with quantityMeat := 0, quantityVeggie := 0 }
    else o

/-! ## Callback payload decoding (`handleCallbackQuery`, bot.go lines 479-501) -/

/-- Result of decoding a callback payload. -/
inductive CallbackAction where
  | ignore
  | cancelAll
  | select (gyrosType : Char) (quantity : Int)
deriving DecidableEq, Repr

/-- Payload decoding: ignore data shorter than 2 bytes or without the
`g` prefix; `g0` cancels; otherwise byte 1 is the gyros type and the
rest goes through `Atoi`, ignoring the press when that fails. -/
def handleCallbackData (chars : List Char) : CallbackAction :=
  match chars with
  | 'g' :: rest =>
    if rest = ['0'] then .cancelAll
    else
      match rest with
      | [] => .ignore
      | t :: qchars =>
        match atoi qchars with
        | some q => .select t q
        | none => .ignore
  | _ => .ignore

/-- The callback payloads carried by the inline keyboard built in
`sendMessageWithReactions` (bot.go lines 742-782), row by row. -/
def keyboardPayloads : List String :=
  ["noop", "gm1", "gm2", "gm3", "gm4", "gm5",
   "noop", "gv1", "gv2", "gv3", "gv4", "gv5", "g0"]

/-! ## Order submission handlers -/

/-- Gateway acknowledgements and replies of the callback handler. -/
inductive CbReply where
  | noReply
  | noActive
  | expired
  | loadFailed
  | orderFailed
  | cancelFailed
  | cancelled
  | confirmed (gyrosType : Char) (quantity : Int)
deriving DecidableEq, Repr

/-- The load of the user's current (meat, veggie) pair (bot.go lines
516-530): scan the filtered rows for the sender, defaulting to the Go
zero values. -/
def currentQuantities (orders : List Order) (fromID : Int) : Int × Int :=
  match (ordersWithQuantity orders).find? (fun o => decide (o.userID = fromID)) with
  | some o => (o.quantityMeat, o.quantityVeggie)
  | none => ((0 : Int), (0 : Int))

/-- The new (meat, veggie) pair of bot.go lines 532-554: the selected
side takes the pressed quantity, the other keeps its current value; an
unknown type character leaves the Go zero values. -/
def newQuantities (t : Char) (q : Int) (current : Int × Int) : Int × Int :=
  if t = 'm' then (q, current.2)
  else if t = 'v' then (current.1, q)
  else ((0 : Int), (0 : Int))

/-- The quantity-selection branch of `handleCallbackQuery` (bot.go lines
503-576): reject when no window is cached or the deadline has passed;
load the user's current pair from the filtered order rows; replace the
selected side, keep the other; upsert. -/
def selectBranch (cache : Option Gyroskop) (now : Nat) (orders : List Order)
    (fromID : Int) (un fn ln : String) (t : Char) (q : Int)
    (loadFails upsertFails : Bool) : CbReply × Option Gyroskop × List Order :=
  match cache with
  | none => (.noActive, cache, orders)
  | some g =>
    if g.deadline < now then (.expired, cache, orders)
    else if loadFails then (.loadFailed, cache, orders)
    else
      let newQ := newQuantities t q (currentQuantities orders fromID)
      if upsertFails then (.orderFailed, cache, orders)
      else (.confirmed t q, cache, addOrUpdateOrder orders fromID un fn ln newQ.1 newQ.2)

/-- `handleCancelOrderCallback` (bot.go lines 579-604). -/
def cancelBranch (cache : Option Gyroskop) (now : Nat) (orders : List Order)
    (fromID : Int) (removeFails : Bool) : CbReply × Option Gyroskop × List Order :=
  match cache with
  | none => (.noActive, cache, orders)
  | some g =>
    if g.deadline < now then (.expired, cache, orders)
    else if removeFails then (.cancelFailed, cache, orders)
    else (.cancelled, cache, removeOrder orders fromID)

/-- `handleCallbackQuery` (bot.go lines 479-576): decode, then dispatch.
The cached window is passed through untouched, as the source never
mutates it here. -/
def handleCallbackQuery (cache : Option Gyroskop) (now : Nat) (orders : List Order)
    (fromID : Int) (un fn ln : String) (data : String)
    (loadFails upsertFails removeFails : Bool) : CbReply × Option Gyroskop × List Order :=
  match handleCallbackData data.toList with
  | .ignore => (.noReply, cache, orders)
  | .cancelAll => cancelBranch cache now orders fromID removeFails
  | .select t q => selectBranch cache now orders fromID un fn ln t q loadFails upsertFails

/-- Replies of the free-text handler. -/
inductive TextReply where
  | ignored
  | useButtonsHint
  | expired
  | cancelFailed
  | cancelled
deriving DecidableEq, Repr

/-- `handleTextMessage` (bot.go lines 317-356) of the two-option
variant: only an integer text is considered, only the value 0 acts, and
it zeroes the sender's order on an open, unexpired window. -/
def handleTextMessage (cache : Option Gyroskop) (now : Nat) (orders : List Order)
    (fromID : Int) (text : String) (removeFails : Bool) :
    TextReply × Option Gyroskop × List Order :=
  match atoi (trimChars text.toList) with
  | none => (.ignored, cache, orders)
  | some quantity =>
    if quantity ≠ 0 then
      match cache with
      | some _ => (.useButtonsHint, cache, orders)
      | none => (.ignored, cache, orders)
    else
      match cache with
      | none => (.ignored, cache, orders)
      | some g =>
        if g.deadline < now then (.expired, cache, orders)
        else if removeFails then (.cancelFailed, cache, orders)
        else (.cancelled, cache, removeOrder orders fromID)

/-! ## Summary formatters (bot.go lines 606-702) -/

/-- Zero-padded rendering of `deadline.Format("15:04")` on a
Berlin-local instant. -/
def formatTimeHM (t : Nat) : String :=
  let h := t % 86400 / 3600
  let m := t % 3600 / 60
  (if h < 10 then "0" ++ toString h else toString h) ++ ":" ++
    (if m < 10 then "0" ++ toString m else toString m)

/-- The per-user fragment of a status line (the `orderText` if-chain
duplicated in `formatCurrentStatus` and `formatOrderSummary`). -/
def orderText (o : Order) : String :=
  if 0 < o.quantityMeat ∧ 0 < o.quantityVeggie then
    "🥩 " ++ toString o.quantityMeat ++ " mit Fleisch, 🥬 " ++
      toString o.quantityVeggie ++ " vegetarisch"
  else if 0 < o.quantityMeat then
    if o.quantityMeat = 1 then "🥩 1 mit Fleisch"
    else "🥩 " ++ toString o.quantityMeat ++ " mit Fleisch"
  else if 0 < o.quantityVeggie then
    if o.quantityVeggie = 1 then "🥬 1 vegetarisch"
    else "🥬 " ++ toString o.quantityVeggie ++ " vegetarisch"
  else ""

/-- `formatUserName` (bot.go lines 719-730). -/
def formatUserName (o : Order) : String :=
  if o.firstName ≠ "" then
    if o.lastName ≠ "" then o.firstName ++ " " ++ o.lastName else o.firstName
  else if o.username ≠ "" then "@" ++ o.username
  else "User " ++ toString o.userID

/-- The order loop shared by both formatters: appends one bullet line
per row while accumulating the two per-option totals. -/
def statusLoop : List Order → String → Int → Int → String × Int × Int
  | [], acc, tm, tv => (acc, tm, tv)
  | o :: rest, acc, tm, tv =>
    statusLoop rest (acc ++ "• " ++ formatUserName o ++ ": " ++ orderText o ++ "\n")
      (tm + o.quantityMeat) (tv + o.quantityVeggie)

/-- The totals line written after the loop, identical in both
formatters: grand total first, then the two per-option sums. -/
def totalsLine (tm tv : Int) : String :=
  "\n🥙 *Gesamt: " ++ toString (tm + tv) ++ " Gyros* (🥩 " ++ toString tm ++
    " mit Fleisch, 🥬 " ++ toString tv ++ " vegetarisch)"

/-- Header of `formatCurrentStatus`. -/
def statusHeader (g : Gyroskop) : String :=
  "📊 *Aktueller Status*\n⏰ Deadline: " ++ formatTimeHM g.deadline ++ " Uhr\n\n"

/-- `formatCurrentStatus` (bot.go lines 606-653). -/
def formatCurrentStatus (g : Gyroskop) (orders : List Order) : String :=
  if orders.length = 0 then statusHeader g ++ "Noch keine Bestellungen 😢"
  else
    statusHeader g ++ (statusLoop orders "" 0 0).1 ++
      totalsLine (statusLoop orders "" 0 0).2.1 (statusLoop orders "" 0 0).2.2

/-- Header of `formatOrderSummary`. -/
def summaryHeader (g : Gyroskop) : String :=
  "📊 *Finale Bestellübersicht*\n⏰ Deadline war: " ++ formatTimeHM g.deadline ++ " Uhr\n\n"

/-- `formatOrderSummary` (bot.go lines 656-702). -/
def formatOrderSummary (g : Gyroskop) (orders : List Order) : String :=
  if orders.length = 0 then summaryHeader g ++ "Keine Bestellungen eingegangen 😢"
  else
    summaryHeader g ++ (statusLoop orders "" 0 0).1 ++
      totalsLine (statusLoop orders "" 0 0).2.1 (statusLoop orders "" 0 0).2.2

/-! ## Window state machine (single group) -/

/-- The window-related state of one group: the durable rows for the
group, the `activeGyroskops` cache entry, and the next id handed out by
the store's id sequence. -/
structure GroupState where
  store : List Gyroskop
  cache : Option Gyroskop
  nextId : Nat
deriving DecidableEq, Repr

/-- Replies of the window-lifecycle handlers. -/
inductive BotReply where
  | conflict
  | invalidTime
  | notGyroskop
  | unauthorized
  | createFailed
  | opened
  | reopenFailed
  | reopened
deriving DecidableEq, Repr

/-- `sendGyroskopMessage` (bot.go lines 214-245): cache the window, send
the message, then record the sent message id both in the store (unless
`UpdateGyroskopMessageID` fails) and on the cached window. A failed send
leaves the ids untouched. -/
def sendGyroskopMessage (s : GroupState) (g : Gyroskop)
    (sendFails msgIdFails : Bool) (newMsgId : Nat) : GroupState :=
  let s1 : GroupState := { s with cache := some g }
  if sendFails then s1
  else
    let store' :=
      if msgIdFails then s1.store
      else s1.store.map fun w =>
        if w.id = g.id then { w with messageID := newMsgId } else w
    { store := store', cache := some { g with messageID := newMsgId }, nextId := s1.nextId }

/-- The create path of `handleNewGyroskop` (bot.go lines 132-163, no
reply): reject while the group's cache holds a window; parse the
deadline; `CreateGyroskop` inserts an open row with the store defaults
for name and options (database.go lines 121-158); then
`sendGyroskopMessage`. -/
def handleNewGyroskop (s : GroupState) (requester : Int) (args : String) (now : Nat)
    (createFails sendFails msgIdFails : Bool) (newMsgId : Nat) : BotReply × GroupState :=
  match s.cache with
  | some _ => (.conflict, s)
  | none =>
    match parseDeadline args now with
    | none => (.invalidTime, s)
    | some deadline =>
      if createFails then (.createFailed, s)
      else
        let g : Gyroskop :=
          { id := s.nextId, createdBy := requester, messageID := 0,
            name := "Gyros", foodOptions := ["Fleisch", "Vegetarisch"],
            deadline := deadline, isOpen := true }
        (.opened,
          sendGyroskopMessage
            { s with store := s.store ++ [g], nextId := s.nextId + 1 }
            g sendFails msgIdFails newMsgId)

/-- `handleReopenGyroskop` (bot.go lines 166-211): look the window up by
the replied-to message id; only its creator may reopen; reject while the
cache holds a window; parse the deadline; `ReopenGyroskop` marks the row
open with the new deadline; then `sendGyroskopMessage`. -/
def handleReopenGyroskop (s : GroupState) (requester : Int) (replyMsgId : Nat)
    (args : String) (now : Nat) (reopenFails sendFails msgIdFails : Bool)
    (newMsgId : Nat) : BotReply × GroupState :=
  match s.store.find? (fun w => decide (w.messageID = replyMsgId)) with
  | none => (.notGyroskop, s)
  | some g =>
    if g.createdBy ≠ requester then (.unauthorized, s)
    else
      match s.cache with
      | some _ => (.conflict, s)
      | none =>
        match parseDeadline args now with
        | none => (.invalidTime, s)
        | some deadline =>
          if reopenFails then (.reopenFailed, s)
          else
            let store1 := s.store.map fun w =>
              if w.id = g.id then { w with isOpen := true, deadline := deadline } else w
            (.reopened,
              sendGyroskopMessage { s with store := store1 }
                { g with deadline := deadline, isOpen := true }
                sendFails msgIdFails newMsgId)

/-- Replies of `closeGyroskop`. -/
inductive CloseReply where
  | loadFailed
  | closeFailed
  | summary (text : String)
deriving DecidableEq, Repr

/-- `closeGyroskop` (bot.go lines 456-476): load the order rows, mark
the row closed in the store, evict the cache entry, and send the final
summary. Either store failure sends a failure message and returns with
nothing changed. -/
def closeGyroskop (s : GroupState) (g : Gyroskop) (rawOrders : List Order)
    (getOrdersFails closeFails : Bool) : CloseReply × GroupState :=
  if getOrdersFails then (.loadFailed, s)
  else
    let orders := ordersWithQuantity rawOrders
    if closeFails then (.closeFailed, s)
    else
      let store' := s.store.map fun w =>
        if w.id = g.id then { w with isOpen := false } else w
      (.summary ("🔒 *Gyroskop beendet!*\n\n" ++ formatOrderSummary g orders),
        { store := store', cache := none, nextId := s.nextId })

/-! ## State-machine invariant -/

/-- Number of rows flagged open in the group's store. -/
def openCount (store : List Gyroskop) : Nat :=
  (store.filter fun w => w.isOpen).length

/-- The cache governs openness of the store rows: with an empty cache
every row is closed, with a cached window every open row is that
window's row. -/
def cacheGoverns (cache : Option Gyroskop) (store : List Gyroskop) : Prop :=
  match cache with
  | none => ∀ w ∈ store, w.isOpen = false
  | some g => ∀ w ∈ store, w.isOpen = true → w.id = g.id

/-- Consistency of a group's window state: row ids are below the store's
id sequence and pairwise distinct, and the cache governs openness. -/
def Inv (s : GroupState) : Prop :=
  (∀ w ∈ s.store, w.id < s.nextId) ∧
  s.store.Pairwise (fun a b => a.id ≠ b.id) ∧
  cacheGoverns s.cache s.store

/-! ## Order-line parser (`parseOrderText` of the generalized bot
variant, second embedded document of src/Dockerfile, lines 1096-1141) -/

/-- A Go map assignment `quantities[matchedOption] = quantity`,
modelled on an association list: overwrite the existing entry, else
append. The entry order of the list carries no meaning (Go maps are
unordered). -/
def mapInsert (m : List (String × Int)) (k : String) (v : Int) :
    List (String × Int) :=
  if m.any fun p => decide (p.1 = k) then
    m.map fun p => if p.1 = k then (k, v) else p
  else m ++ [(k, v)]

/-- The anchored Go regex `^\s*(\d+)\s*(.+?)\s*$` applied to an already
trimmed fragment, returning the two captures with the caller's final
TrimSpace already applied to the second. With leftmost-first capture
semantics the greedy `(\d+)` backs off one digit when it would swallow
the whole fragment, because `(.+?)` needs at least one character;
otherwise the captures are the maximal digit run and the trimmed
remainder (a trimmed fragment never leaves an all-space remainder). -/
def orderRegexMatch (t : List Char) : Option (List Char × List Char) :=
  let digits := t.takeWhile Char.isDigit
  let rest := t.dropWhile Char.isDigit
  if digits.isEmpty then none
  else if rest.isEmpty then
    if 2 ≤ digits.length then
      some (digits.dropLast, digits.drop (digits.length - 1))
    else none
  else some (digits, trimChars rest)

/-- `parseOrderText` (generalized bot variant, src/Dockerfile lines
1096-1141): split the text on newlines, then each line on commas; for
each trimmed non-empty part match the order regex, parse the quantity
(its negativity check is vacuous on an all-digit capture) and skip it
outside [0, 10], resolve the text capture through `FuzzyMatchOption`,
and assign into the quantities map (overwriting on a repeated option);
return nil when no part produced a valid pair. -/
def parseOrderText (text : String) (foodOptions : List String) :
    Option (List (String × Int)) :=
  let parts := (splitOn '\n' text.toList).flatMap (splitOn ',')
  let quantities := parts.foldl
    (fun acc part =>
      let part := trimChars part
      if part.isEmpty then acc
      else
        match orderRegexMatch part with
        | none => acc
        | some (digits, optionText) =>
          match digitsToNat digits with
          | none => acc
          | some quantity =>
            if 10 < quantity then acc
            else
              match FuzzyMatchOption (String.mk optionText) foodOptions with
              | (matchedOption, true) => mapInsert acc matchedOption (quantity : Int)
              | (_, false) => acc)
    []
  if quantities.isEmpty then none else some quantities

/-! ## Auxiliary predicates and demonstration data -/

/-- The per-option quantity range of the Order invariant (spec §3). -/
def InRange (o : Order) : Prop :=
  0 ≤ o.quantityMeat ∧ o.quantityMeat ≤ 10 ∧
    0 ≤ o.quantityVeggie ∧ o.quantityVeggie ≤ 10

instance (o : Order) : Decidable (InRange o) := by
  unfold InRange; infer_instance

/-- A sample open window used by concrete instantiations. -/
def demoWindow : Gyroskop :=
  { id := 1, createdBy := 7, messageID := 3, name := "Gyros",
    foodOptions := ["Fleisch", "Vegetarisch"], deadline := 1000, isOpen := true }

/-- A sample order row used by concrete instantiations. -/
def demoOrder : Order :=
  { userID := 5, username := "u", firstName := "Ann", lastName := "Lee",
    quantityMeat := 2, quantityVeggie := 0 }

/-- The order row written by the forged payload gm11 in the C2
counterexample. -/
def demoRow11 : Order :=
  { userID := 5, username := "u", firstName := "Ann", lastName := "Lee",
    quantityMeat := 11, quantityVeggie := 0 }

/-- The order row written by the keyboard payload gm2. -/
def demoRow2 : Order :=
  { userID := 5, username := "u", firstName := "Ann", lastName := "Lee",
    quantityMeat := 2, quantityVeggie := 0 }

/-- A sample group state whose cache holds `demoWindow`. -/
def demoStateOpen : GroupState :=
  { store := [demoWindow], cache := some demoWindow, nextId := 2 }

/-! # Theorems -/

/-- C5: against the options Fleisch/Vegetarisch, `parseOrderText` maps
"2 fleisch, 3 veg" to the mapping Fleisch 2, Vegetarisch 3; rejects
"15 fleisch" (quantity outside [0,10]) and "2 xyz" (no fuzzy match)
with null; and lets the later fragment win in "2 fleisch, 5 fleisch". -/
theorem parseOrderText_contract_examples :
    parseOrderText "2 fleisch, 3 veg" ["Fleisch", "Vegetarisch"] =
      some [("Fleisch", 2), ("Vegetarisch", 3)] ∧
    parseOrderText "15 fleisch" ["Fleisch", "Vegetarisch"] = none ∧
    parseOrderText "2 xyz" ["Fleisch", "Vegetarisch"] = none ∧
    parseOrderText "2 fleisch, 5 fleisch" ["Fleisch", "Vegetarisch"] =
      some [("Fleisch", 5)] := by
  refine ⟨?_, ?_, ?_, ?_⟩ <;> decide

/-- C4 (code bug): exact case-insensitive equality is not prioritized by
the option matcher: the input "fleisch" equals the option "Fleisch" up
to case, yet with option list ["Fleischxx", "Fleisch"] the matcher
returns "Fleischxx", the first option of which the input is a
case-insensitive subsequence. -/
theorem FuzzyMatchOption_exact_not_prioritized :
    "fleisch".toList.map Char.toLower = "Fleisch".toList.map Char.toLower ∧
    "Fleisch" ∈ ["Fleischxx", "Fleisch"] ∧
    FuzzyMatchOption "fleisch" ["Fleischxx", "Fleisch"] = ("Fleischxx", true) := by
  refine ⟨?_, ?_, ?_⟩ <;> decide

/-- C8 (counterexample): the claimed `g<optionIndex>_<quantity>`
encoding does not govern the callback handler — the payload "g0_2"
(option 0, quantity 2 under that scheme) is ignored, while the
keyboard's actual quantity payload "gm2" decodes through the
type-character scheme. -/
theorem callback_claimed_encoding_fails :
    "gm2" ∈ keyboardPayloads ∧
    handleCallbackData "g0_2".toList = .ignore ∧
    handleCallbackData "gm2".toList = .select 'm' 2 := by
  refine ⟨?_, ?_, ?_⟩ <;> decide

/-- C8 (amended): the keyboard's payloads are two noop headers, the
quantity selections gm1..gm5 and gv1..gv5 — a type character ('m' meat,
'v' veggie) followed by the decimal quantity — and the cancel-all
payload g0; the handler decodes each of them accordingly. -/
theorem keyboardPayloads_decode :
    keyboardPayloads.map (fun p => handleCallbackData p.toList) =
      [.ignore, .select 'm' 1, .select 'm' 2, .select 'm' 3, .select 'm' 4,
       .select 'm' 5, .ignore, .select 'v' 1, .select 'v' 2, .select 'v' 3,
       .select 'v' 4, .select 'v' 5, .cancelAll] := by
  decide

/-- C3 (counterexample): with `now` at exactly 12:00:00 civil time,
the input "12:00" returns an instant equal to `now` — neither strictly
after `now` nor rolled forward by one day. -/
theorem parseDeadline_not_strictly_future :
    parseDeadline "12:00" 43200 = some 43200 ∧ ¬ (43200 < 43200) := by
  refine ⟨?_, ?_⟩ <;> decide

/-- C3 (amended): for every valid H:MM / HH:MM time and every `now`,
the H:MM branch of `parseDeadline` returns an instant carrying the
given hour and minute in the fixed civil timezone that is never before
`now`, and it is rolled forward by exactly one civil day exactly when
the combination of today's date with that wall-clock time is strictly
before `now`; at exact equality the instant equals `now`. -/
theorem parseDeadlineHM_correct (h m now : Nat) (hh : h < 24) (hm : m < 60) :
    parseDeadlineHM h m now % 86400 / 3600 = h ∧
    parseDeadlineHM h m now % 86400 % 3600 / 60 = m ∧
    now ≤ parseDeadlineHM h m now ∧
    (now / 86400 * 86400 + h * 3600 + m * 60 < now →
      parseDeadlineHM h m now = now / 86400 * 86400 + h * 3600 + m * 60 + 86400) ∧
    (¬ (now / 86400 * 86400 + h * 3600 + m * 60 < now) →
      parseDeadlineHM h m now = now / 86400 * 86400 + h * 3600 + m * 60) := by
  unfold parseDeadlineHM
  split <;> refine ⟨?_, ?_, ?_, ?_, ?_⟩ <;> omega

/-- Concrete instantiation of `parseDeadlineHM_correct` at 17:30 with
`now` at noon. -/
theorem parseDeadlineHM_correct_witness :
    parseDeadlineHM 17 30 43200 % 86400 / 3600 = 17 ∧
    43200 ≤ parseDeadlineHM 17 30 43200 :=
  ⟨(parseDeadlineHM_correct 17 30 43200 (by decide) (by decide)).1,
   (parseDeadlineHM_correct 17 30 43200 (by decide) (by decide)).2.2.1⟩

/-- C10: whenever the option matcher reports found, its result is one of
the given options; whenever it reports not-found, its result is the
empty string; an empty option list and whitespace-only input always
yield `("", false)`. -/
theorem FuzzyMatchOption_sound (input : String) (options : List String) :
    ((FuzzyMatchOption input options).2 = true →
      (FuzzyMatchOption input options).1 ∈ options) ∧
    ((FuzzyMatchOption input options).2 = false →
      (FuzzyMatchOption input options).1 = "") ∧
    FuzzyMatchOption input [] = ("", false) ∧
    (trimChars input.toList = [] → FuzzyMatchOption input options = ("", false)) := by
  have key : ∀ opts : List String,
      FuzzyMatchOption input opts = ("", false) ∨
      (∃ rs, findFold (trimChars input.toList) opts =
          (FuzzyMatchOption input opts).1 :: rs) ∧
        (FuzzyMatchOption input opts).2 = true := by
    intro opts
    unfold FuzzyMatchOption
    by_cases h0 : (trimChars input.toList).isEmpty
    · left
      rw [if_pos h0]
    · rw [if_neg h0]
      rcases hf : findFold (trimChars input.toList) opts with _ | ⟨r, rs⟩
      · left
        rfl
      · right
        exact ⟨⟨rs, rfl⟩, rfl⟩
  refine ⟨?_, ?_, ?_, ?_⟩
  · intro hfound
    rcases key options with he | ⟨⟨rs, hfind⟩, _⟩
    · rw [he] at hfound
      cases hfound
    · have hmem : (FuzzyMatchOption input options).1 ∈
          findFold (trimChars input.toList) options := by
        rw [hfind]
        exact List.mem_cons_self _ _
      exact List.mem_of_mem_filter hmem
  · intro hnf
    rcases key options with he | ⟨_, ht⟩
    · rw [he]
    · rw [ht] at hnf
      cases hnf
  · rcases key [] with he | ⟨⟨rs, hfind⟩, _⟩
    · exact he
    · exact absurd hfind (by simp [findFold])
  · intro he
    unfold FuzzyMatchOption
    have h0 : (trimChars input.toList).isEmpty = true := by
      rw [he]
      rfl
    rw [if_pos h0]

/-- Concrete instantiation of `FuzzyMatchOption_sound`: the match for
"fl" lies in the option list. -/
theorem FuzzyMatchOption_sound_witness :
    (FuzzyMatchOption "fl" ["Fleisch", "Vegetarisch"]).1 ∈ ["Fleisch", "Vegetarisch"] :=
  (FuzzyMatchOption_sound "fl" ["Fleisch", "Vegetarisch"]).1 (by decide)

/-- C9: when a store operation fails while closing a window — loading
the order rows or marking the row closed — the handler sends a failure
reply and returns with no state change: the window stays cached and
still open in the store, and no final summary is emitted; the operation
is not retried (the handler returns immediately). -/
theorem closeGyroskop_store_failure (s : GroupState) (g : Gyroskop)
    (rawOrders : List Order) (f1 f2 : Bool) (hg : s.cache = some g)
    (hfail : f1 = true ∨ f2 = true) :
    (closeGyroskop s g rawOrders f1 f2).2 = s ∧
    (closeGyroskop s g rawOrders f1 f2).2.cache = some g ∧
    ∀ text, (closeGyroskop s g rawOrders f1 f2).1 ≠ CloseReply.summary text := by
  rcases hfail with rfl | rfl
  · exact ⟨rfl, hg, fun text h => CloseReply.noConfusion h⟩
  · cases f1
    · exact ⟨rfl, hg, fun text h => CloseReply.noConfusion h⟩
    · exact ⟨rfl, hg, fun text h => CloseReply.noConfusion h⟩

/-- Concrete instantiation of `closeGyroskop_store_failure`: a failing
load aborts the close with the state intact. -/
theorem closeGyroskop_store_failure_witness :
    (closeGyroskop demoStateOpen demoWindow [] true false).2 = demoStateOpen :=
  (closeGyroskop_store_failure demoStateOpen demoWindow [] true false rfl (Or.inl rfl)).1

/-! ## Range lemmas for order rows -/

theorem mem_addOrUpdateOrder {orders : List Order} {userID : Int}
    {un fn ln : String} {qm qv : Int} {o : Order}
    (h : o ∈ addOrUpdateOrder orders userID un fn ln qm qv) :
    o ∈ orders ∨ (o.quantityMeat = qm ∧ o.quantityVeggie = qv) := by
  unfold addOrUpdateOrder at h
  split at h
  · rcases List.mem_map.1 h with ⟨a, ha, hfa⟩
    by_cases hu : a.userID = userID
    · rw [if_pos hu] at hfa
      right
      rw [← hfa]
      exact ⟨rfl, rfl⟩
    · rw [if_neg hu] at hfa
      left
      rw [← hfa]
      exact ha
  · rcases List.mem_append.1 h with ha | ha
    · exact Or.inl ha
    · right
      rw [List.mem_singleton.1 ha]
      exact ⟨rfl, rfl⟩

theorem mem_removeOrder {orders : List Order} {userID : Int} {o : Order}
    (h : o ∈ removeOrder orders userID) :
    o ∈ orders ∨ (o.quantityMeat = 0 ∧ o.quantityVeggie = 0) := by
  unfold removeOrder at h
  rcases List.mem_map.1 h with ⟨a, ha, hfa⟩
  by_cases hu : a.userID = userID
  · rw [if_pos hu] at hfa
    right
    rw [← hfa]
    exact ⟨rfl, rfl⟩
  · rw [if_neg hu] at hfa
    left
    rw [← hfa]
    exact ha

theorem currentQuantities_bounds (orders : List Order) (fromID : Int)
    (hq : ∀ o ∈ orders, InRange o) :
    0 ≤ (currentQuantities orders fromID).1 ∧
    (currentQuantities orders fromID).1 ≤ 10 ∧
    0 ≤ (currentQuantities orders fromID).2 ∧
    (currentQuantities orders fromID).2 ≤ 10 := by
  unfold currentQuantities
  rcases hfind : (ordersWithQuantity orders).find?
      (fun o => decide (o.userID = fromID)) with _ | o
  · rw [hfind]
    exact ⟨le_refl 0, by norm_num, le_refl 0, by norm_num⟩
  · rw [hfind]
    have hmem : o ∈ ordersWithQuantity orders := List.mem_of_find?_eq_some hfind
    have hro := hq o (List.mem_of_mem_filter hmem)
    exact ⟨hro.1, hro.2.1, hro.2.2.1, hro.2.2.2⟩

theorem newQuantities_bounds (t : Char) (q : Int) (cur : Int × Int)
    (hq0 : 0 ≤ q) (hq10 : q ≤ 10)
    (hc : 0 ≤ cur.1 ∧ cur.1 ≤ 10 ∧ 0 ≤ cur.2 ∧ cur.2 ≤ 10) :
    0 ≤ (newQuantities t q cur).1 ∧ (newQuantities t q cur).1 ≤ 10 ∧
    0 ≤ (newQuantities t q cur).2 ∧ (newQuantities t q cur).2 ≤ 10 := by
  obtain ⟨c1, c2, c3, c4⟩ := hc
  unfold newQuantities
  split_ifs <;> dsimp only <;> refine ⟨?_, ?_, ?_, ?_⟩ <;> omega

theorem selectBranch_inRange (cache : Option Gyroskop) (now : Nat)
    (orders : List Order) (fromID : Int) (un fn ln : String) (t : Char)
    (q : Int) (lf uf : Bool) (hq0 : 0 ≤ q) (hq10 : q ≤ 10)
    (hq : ∀ o ∈ orders, InRange o) :
    ∀ o ∈ (selectBranch cache now orders fromID un fn ln t q lf uf).2.2,
      InRange o := by
  intro o ho
  rcases cache with _ | g
  · exact hq o (by simpa [selectBranch] using ho)
  · simp only [selectBranch] at ho
    split at ho
    · exact hq o ho
    · split at ho
      · exact hq o ho
      · split at ho
        · exact hq o ho
        · rcases mem_addOrUpdateOrder ho with hmem | ⟨hm, hv⟩
          · exact hq o hmem
          · obtain ⟨b1, b2, b3, b4⟩ := newQuantities_bounds t q
              (currentQuantities orders fromID) hq0 hq10
              (currentQuantities_bounds orders fromID hq)
            unfold InRange
            refine ⟨?_, ?_, ?_, ?_⟩ <;> omega

theorem cancelBranch_inRange (cache : Option Gyroskop) (now : Nat)
    (orders : List Order) (fromID : Int) (rf : Bool)
    (hq : ∀ o ∈ orders, InRange o) :
    ∀ o ∈ (cancelBranch cache now orders fromID rf).2.2, InRange o := by
  intro o ho
  rcases cache with _ | g
  · exact hq o (by simpa [cancelBranch] using ho)
  · simp only [cancelBranch] at ho
    split at ho
    · exact hq o ho
    · split at ho
      · exact hq o ho
      · rcases mem_removeOrder ho with hmem | ⟨hm, hv⟩
        · exact hq o hmem
        · unfold InRange
          refine ⟨?_, ?_, ?_, ?_⟩ <;> omega

theorem handleTextMessage_inRange (cache : Option Gyroskop) (now : Nat)
    (orders : List Order) (fromID : Int) (text : String) (rf : Bool)
    (hq : ∀ o ∈ orders, InRange o) :
    ∀ o ∈ (handleTextMessage cache now orders fromID text rf).2.2, InRange o := by
  intro o ho
  rcases ha : atoi (trimChars text.toList) with _ | quantity <;>
    rcases cache with _ | g <;>
    simp only [handleTextMessage, ha] at ho
  · exact hq o ho
  · exact hq o ho
  · split at ho
    · exact hq o ho
    · exact hq o ho
  · split at ho
    · exact hq o ho
    · split at ho
      · exact hq o ho
      · split at ho
        · exact hq o ho
        · rcases mem_removeOrder ho with hmem | ⟨hm, hv⟩
          · exact hq o hmem
          · unfold InRange
            refine ⟨?_, ?_, ?_, ?_⟩ <;> omega

/-- C2 (counterexample): the forged callback payload "gm11" on an open,
unexpired window persists an order row with per-option quantity 11,
outside [0, 10] — the callback handler applies no range check to the
decoded quantity. -/
theorem callback_writes_out_of_range :
    (handleCallbackQuery (some demoWindow) 0 [] 5 "u" "Ann" "Lee" "gm11"
        false false false).2.2 = [demoRow11] ∧
    ¬ InRange demoRow11 := by
  refine ⟨?_, ?_⟩ <;> decide

/-- C2 (amended): for every callback payload the bot's own keyboard
issues, and for every free-text input, the submission handlers only
persist order rows whose per-option quantities lie in [0, 10], provided
the stored rows already do; only forged callback payloads (such as
gm11) can write a quantity outside the range. -/
theorem quantities_in_range (cache : Option Gyroskop) (now : Nat)
    (orders : List Order) (fromID : Int) (un fn ln : String) (data : String)
    (lf uf rf : Bool) (hdata : data ∈ keyboardPayloads)
    (hq : ∀ o ∈ orders, InRange o) :
    (∀ o ∈ (handleCallbackQuery cache now orders fromID un fn ln data lf uf rf).2.2,
      InRange o) ∧
    (∀ text rf2, ∀ o ∈ (handleTextMessage cache now orders fromID text rf2).2.2,
      InRange o) := by
  constructor
  · have hact : handleCallbackData data.toList = .ignore ∨
        handleCallbackData data.toList = .cancelAll ∨
        ∃ t q, handleCallbackData data.toList = .select t q ∧ 0 ≤ q ∧ q ≤ 10 := by
      simp only [keyboardPayloads, List.mem_cons, List.not_mem_nil, or_false] at hdata
      rcases hdata with rfl | rfl | rfl | rfl | rfl | rfl | rfl | rfl | rfl | rfl | rfl | rfl | rfl
      · exact Or.inl (by decide)
      · exact Or.inr (Or.inr ⟨'m', 1, by decide, by decide, by decide⟩)
      · exact Or.inr (Or.inr ⟨'m', 2, by decide, by decide, by decide⟩)
      · exact Or.inr (Or.inr ⟨'m', 3, by decide, by decide, by decide⟩)
      · exact Or.inr (Or.inr ⟨'m', 4, by decide, by decide, by decide⟩)
      · exact Or.inr (Or.inr ⟨'m', 5, by decide, by decide, by decide⟩)
      · exact Or.inl (by decide)
      · exact Or.inr (Or.inr ⟨'v', 1, by decide, by decide, by decide⟩)
      · exact Or.inr (Or.inr ⟨'v', 2, by decide, by decide, by decide⟩)
      · exact Or.inr (Or.inr ⟨'v', 3, by decide, by decide, by decide⟩)
      · exact Or.inr (Or.inr ⟨'v', 4, by decide, by decide, by decide⟩)
      · exact Or.inr (Or.inr ⟨'v', 5, by decide, by decide, by decide⟩)
      · exact Or.inr (Or.inl (by decide))
    rcases hact with hi | hc | ⟨t, q, hs, hq0, hq10⟩
    · intro o ho
      unfold handleCallbackQuery at ho
      rw [hi] at ho
      exact hq o ho
    · intro o ho
      unfold handleCallbackQuery at ho
      rw [hc] at ho
      exact cancelBranch_inRange cache now orders fromID rf hq o ho
    · intro o ho
      unfold handleCallbackQuery at ho
      rw [hs] at ho
      exact selectBranch_inRange cache now orders fromID un fn ln t q lf uf
        hq0 hq10 hq o ho
  · intro text rf2
    exact handleTextMessage_inRange cache now orders fromID text rf2 hq

/-- Concrete instantiation of `quantities_in_range`: the row written by
the keyboard payload gm2 is in range. -/
theorem quantities_in_range_witness :
    InRange demoRow2 :=
  (quantities_in_range (some demoWindow) 0 [] 5 "u" "Ann" "Lee" "gm2"
      false false false (by decide) (by simp)).1 demoRow2 (by decide)

/-! ## Formatter totals -/

theorem statusLoop_totals (orders : List Order) (acc : String) (tm tv : Int) :
    (statusLoop orders acc tm tv).2.1 =
      tm + (orders.map fun o => o.quantityMeat).sum ∧
    (statusLoop orders acc tm tv).2.2 =
      tv + (orders.map fun o => o.quantityVeggie).sum := by
  induction orders generalizing acc tm tv with
  | nil => simp [statusLoop]
  | cons o rest ih =>
    have h := ih (acc ++ "• " ++ formatUserName o ++ ": " ++ orderText o ++ "\n")
      (tm + o.quantityMeat) (tv + o.quantityVeggie)
    simp only [statusLoop, List.map_cons, List.sum_cons]
    constructor
    · rw [h.1]
      ring
    · rw [h.2]
      ring

theorem sum_ordersWithQuantity (orders : List Order)
    (hq : ∀ o ∈ orders, 0 ≤ o.quantityMeat ∧ 0 ≤ o.quantityVeggie) :
    ((ordersWithQuantity orders).map fun o => o.quantityMeat).sum =
      (orders.map fun o => o.quantityMeat).sum ∧
    ((ordersWithQuantity orders).map fun o => o.quantityVeggie).sum =
      (orders.map fun o => o.quantityVeggie).sum := by
  induction orders with
  | nil => simp [ordersWithQuantity]
  | cons o rest ih =>
    have hr := ih fun a ha => hq a (List.mem_cons_of_mem _ ha)
    have ho := hq o (List.mem_cons_self _ _)
    unfold ordersWithQuantity at hr ⊢
    rw [List.filter_cons]
    by_cases hk : 0 < o.quantityMeat ∨ 0 < o.quantityVeggie
    · rw [if_pos (by simpa using hk)]
      simp only [List.map_cons, List.sum_cons]
      exact ⟨by rw [hr.1], by rw [hr.2]⟩
    · rw [if_neg (by simpa using hk)]
      have hm : o.quantityMeat = 0 := by omega
      have hv : o.quantityVeggie = 0 := by omega
      simp only [List.map_cons, List.sum_cons, hm, hv, zero_add]
      exact hr

/-- C7: the totals computed by the status formatter over the store's
filtered rows are exactly the per-option sums over all rows (rows with
no positive quantity are dropped by the filter and contribute nothing),
the grand total rendered by `totalsLine` is the sum of the two option
sums, and an empty filtered row list yields the fixed no-orders message
instead of a totals line. -/
theorem formatCurrentStatus_totals (g : Gyroskop) (orders : List Order)
    (hq : ∀ o ∈ orders, 0 ≤ o.quantityMeat ∧ 0 ≤ o.quantityVeggie) :
    (ordersWithQuantity orders = [] →
      formatCurrentStatus g (ordersWithQuantity orders) =
        statusHeader g ++ "Noch keine Bestellungen 😢") ∧
    (ordersWithQuantity orders ≠ [] →
      (statusLoop (ordersWithQuantity orders) "" 0 0).2.1 =
        (orders.map fun o => o.quantityMeat).sum ∧
      (statusLoop (ordersWithQuantity orders) "" 0 0).2.2 =
        (orders.map fun o => o.quantityVeggie).sum ∧
      formatCurrentStatus g (ordersWithQuantity orders) =
        statusHeader g ++ (statusLoop (ordersWithQuantity orders) "" 0 0).1 ++
          totalsLine ((orders.map fun o => o.quantityMeat).sum)
            ((orders.map fun o => o.quantityVeggie).sum)) := by
  have hs := sum_ordersWithQuantity orders hq
  have hl := statusLoop_totals (ordersWithQuantity orders) "" 0 0
  have h1 : (statusLoop (ordersWithQuantity orders) "" 0 0).2.1 =
      (orders.map fun o => o.quantityMeat).sum := by
    rw [hl.1, zero_add, hs.1]
  have h2 : (statusLoop (ordersWithQuantity orders) "" 0 0).2.2 =
      (orders.map fun o => o.quantityVeggie).sum := by
    rw [hl.2, zero_add, hs.2]
  constructor
  · intro he
    unfold formatCurrentStatus
    rw [he]
    rfl
  · intro hne
    refine ⟨h1, h2, ?_⟩
    unfold formatCurrentStatus
    rw [if_neg (by simpa using hne), h1, h2]

/-- Concrete instantiation of `formatCurrentStatus_totals`: the meat
accumulator over the sample row equals the list sum. -/
theorem formatCurrentStatus_totals_witness :
    (statusLoop (ordersWithQuantity [demoRow2]) "" 0 0).2.1 =
      ([demoRow2].map fun o => o.quantityMeat).sum :=
  ((formatCurrentStatus_totals demoWindow [demoRow2] (by decide)).2 (by decide)).1

/-! ## Frame property of button submissions -/

theorem userID_unique {orders : List Order}
    (hpw : orders.Pairwise fun a b => a.userID ≠ b.userID)
    {a b : Order} (ha : a ∈ orders) (hb : b ∈ orders)
    (h : a.userID = b.userID) : a = b := by
  induction orders with
  | nil => cases ha
  | cons o rest ih =>
    rcases List.pairwise_cons.1 hpw with ⟨ho, hrest⟩
    rcases List.mem_cons.1 ha with rfl | ha2
    · rcases List.mem_cons.1 hb with rfl | hb2
      · rfl
      · exact absurd h (ho b hb2)
    · rcases List.mem_cons.1 hb with rfl | hb2
      · exact absurd h.symm (ho a ha2)
      · exact ih hrest ha2 hb2

theorem currentQuantities_of_find? {orders : List Order} {fromID : Int}
    {o₀ : Order} (hq : ∀ o ∈ orders, InRange o)
    (hpw : orders.Pairwise fun a b => a.userID ≠ b.userID)
    (hfound : orders.find? (fun o => decide (o.userID = fromID)) = some o₀) :
    currentQuantities orders fromID = (o₀.quantityMeat, o₀.quantityVeggie) := by
  induction orders with
  | nil => cases hfound
  | cons o rest ih =>
    rcases List.pairwise_cons.1 hpw with ⟨hho, hrest⟩
    by_cases hu : o.userID = fromID
    · rw [List.find?_cons_of_pos _ (by simpa using hu)] at hfound
      have ho₀ : o = o₀ := Option.some.inj hfound
      subst ho₀
      obtain ⟨hm0, _, hv0, _⟩ := hq o (List.mem_cons_self _ _)
      unfold currentQuantities ordersWithQuantity
      rw [List.filter_cons]
      by_cases hk : 0 < o.quantityMeat ∨ 0 < o.quantityVeggie
      · rw [if_pos (by simpa using hk),
          List.find?_cons_of_pos _ (by simpa using hu)]
      · rw [if_neg (by simpa using hk)]
        have hm : o.quantityMeat = 0 := by omega
        have hv : o.quantityVeggie = 0 := by omega
        have hnone : (rest.filter fun x =>
            decide (0 < x.quantityMeat ∨ 0 < x.quantityVeggie)).find?
              (fun x => decide (x.userID = fromID)) = none := by
          rw [List.find?_eq_none]
          intro x hx
          have hxr : x ∈ rest := List.mem_of_mem_filter hx
          have hne := hho x hxr
          rw [hu] at hne
          simpa using fun hxe => hne hxe.symm
        rw [hnone, hm, hv]
    · rw [List.find?_cons_of_neg _ (by simpa using hu)] at hfound
      have hcur := ih (fun a ha => hq a (List.mem_cons_of_mem _ ha)) hrest hfound
      unfold currentQuantities ordersWithQuantity at hcur ⊢
      rw [List.filter_cons]
      by_cases hk : 0 < o.quantityMeat ∨ 0 < o.quantityVeggie
      · rw [if_pos (by simpa using hk),
          List.find?_cons_of_neg _ (by simpa using hu)]
        exact hcur
      · rw [if_neg (by simpa using hk)]
        exact hcur

/-- C6: a quantity-selection button press on an open, unexpired window
replaces exactly the selected option's quantity in the presser's order
row (refreshing the denormalized display names) and leaves the other
option's quantity and every other user's row unchanged; the cached
window itself undergoes no transition. -/
theorem button_submission_frame (g : Gyroskop) (now : Nat)
    (orders : List Order) (fromID : Int) (un fn ln : String) (t : Char)
    (q : Int) (o₀ : Order) (ht : t = 'm' ∨ t = 'v')
    (hopen : ¬ (g.deadline < now)) (hq : ∀ o ∈ orders, InRange o)
    (hpw : orders.Pairwise fun a b => a.userID ≠ b.userID)
    (hfound : orders.find? (fun o => decide (o.userID = fromID)) = some o₀) :
    (selectBranch (some g) now orders fromID un fn ln t q false false).2.1 =
      some g ∧
    (selectBranch (some g) now orders fromID un fn ln t q false false).1 =
      CbReply.confirmed t q ∧
    (t = 'm' →
      (selectBranch (some g) now orders fromID un fn ln t q false false).2.2 =
        orders.map fun o =>
          if o.userID = fromID then
            { o with
              username := un, firstName := fn, lastName := ln,
              quantityMeat := q }
          else o) ∧
    (t = 'v' →
      (selectBranch (some g) now orders fromID un fn ln t q false false).2.2 =
        orders.map fun o =>
          if o.userID = fromID then
            { o with
              username := un, firstName := fn, lastName := ln,
              quantityVeggie := q }
          else o) := by
  have hcur := currentQuantities_of_find? hq hpw hfound
  have huid : o₀.userID = fromID := by
    have hpred := List.find?_some hfound
    simpa using hpred
  have hmem₀ : o₀ ∈ orders := List.mem_of_find?_eq_some hfound
  have hany : (orders.any fun o => decide (o.userID = fromID)) = true := by
    rw [List.any_eq_true]
    exact ⟨o₀, hmem₀, by simpa using huid⟩
  have hred : selectBranch (some g) now orders fromID un fn ln t q false false =
      (CbReply.confirmed t q, some g,
        addOrUpdateOrder orders fromID un fn ln
          (newQuantities t q (currentQuantities orders fromID)).1
          (newQuantities t q (currentQuantities orders fromID)).2) := by
    simp only [selectBranch]
    rw [if_neg hopen]
    rfl
  rw [hred]
  refine ⟨rfl, rfl, ?_, ?_⟩
  · rintro rfl
    rw [hcur]
    show addOrUpdateOrder orders fromID un fn ln q o₀.quantityVeggie = _
    unfold addOrUpdateOrder
    rw [if_pos hany]
    apply List.map_congr_left
    intro a ha
    by_cases hu : a.userID = fromID
    · rw [if_pos hu, if_pos hu]
      have hao : a = o₀ := userID_unique hpw ha hmem₀ (by rw [hu, huid])
      subst hao
      rw [huid]
    · rw [if_neg hu, if_neg hu]
  · rintro rfl
    rw [hcur]
    show addOrUpdateOrder orders fromID un fn ln o₀.quantityMeat q = _
    unfold addOrUpdateOrder
    rw [if_pos hany]
    apply List.map_congr_left
    intro a ha
    by_cases hu : a.userID = fromID
    · rw [if_pos hu, if_pos hu]
      have hao : a = o₀ := userID_unique hpw ha hmem₀ (by rw [hu, huid])
      subst hao
      rw [huid]
    · rw [if_neg hu, if_neg hu]

/-- Concrete instantiation of `button_submission_frame`: a meat
selection leaves the cached window untouched. -/
theorem button_submission_frame_witness :
    (selectBranch (some demoWindow) 0 [demoRow2] 5 "u2" "A" "B" 'm' 3
        false false).2.1 = some demoWindow :=
  (button_submission_frame demoWindow 0 [demoRow2] 5 "u2" "A" "B" 'm' 3 demoRow2
      (Or.inl rfl) (by decide) (by decide) (by decide) (by decide)).1

/-! ## The at-most-one-open-window invariant -/

theorem openCount_le_one {store : List Gyroskop} {gid : Nat}
    (hpw : store.Pairwise fun a b => a.id ≠ b.id)
    (hopen : ∀ w ∈ store, w.isOpen = true → w.id = gid) :
    openCount store ≤ 1 := by
  induction store with
  | nil => simp [openCount]
  | cons w rest ih =>
    rcases List.pairwise_cons.1 hpw with ⟨hw, hrest⟩
    unfold openCount at ih ⊢
    rw [List.filter_cons]
    by_cases hwo : w.isOpen = true
    · rw [if_pos hwo]
      have hrest0 : (rest.filter fun x => x.isOpen) = [] := by
        rw [List.filter_eq_nil_iff]
        intro x hx hxo
        have h1 := hopen w (List.mem_cons_self _ _) hwo
        have h2 := hopen x (List.mem_cons_of_mem _ hx) hxo
        exact hw x hx (h1.trans h2.symm)
      rw [hrest0]
      exact le_refl 1
    · rw [if_neg hwo]
      exact ih hrest fun x hx hxo => hopen x (List.mem_cons_of_mem _ hx) hxo

theorem openCount_eq_zero {store : List Gyroskop}
    (hclosed : ∀ w ∈ store, w.isOpen = false) : openCount store = 0 := by
  unfold openCount
  rw [List.length_eq_zero, List.filter_eq_nil_iff]
  intro x hx hxo
  rw [hclosed x hx] at hxo
  cases hxo

theorem openCount_le_one_of_inv (s : GroupState) (hInv : Inv s) :
    openCount s.store ≤ 1 := by
  obtain ⟨_, h2, h3⟩ := hInv
  rcases hc : s.cache with _ | g
  · rw [hc] at h3
    rw [openCount_eq_zero h3]
    exact Nat.zero_le 1
  · rw [hc] at h3
    exact openCount_le_one h2 h3

theorem ids_lt_map (store : List Gyroskop) (f : Gyroskop → Gyroskop) (n : Nat)
    (hf : ∀ w, (f w).id = w.id) (h : ∀ w ∈ store, w.id < n) :
    ∀ w ∈ store.map f, w.id < n := by
  intro w hw
  rcases List.mem_map.1 hw with ⟨a, ha, rfl⟩
  rw [hf]
  exact h a ha

theorem pairwise_ids_map (store : List Gyroskop) (f : Gyroskop → Gyroskop)
    (hf : ∀ w, (f w).id = w.id)
    (h : store.Pairwise fun a b => a.id ≠ b.id) :
    (store.map f).Pairwise fun a b => a.id ≠ b.id := by
  rw [List.pairwise_map]
  refine h.imp ?_
  intro a b hab
  rw [hf, hf]
  exact hab

theorem inv_sendGyroskopMessage (s : GroupState) (g : Gyroskop)
    (sf mf : Bool) (mid : Nat)
    (hids : ∀ w ∈ s.store, w.id < s.nextId)
    (hpw : s.store.Pairwise fun a b => a.id ≠ b.id)
    (hopen : ∀ w ∈ s.store, w.isOpen = true → w.id = g.id) :
    Inv (sendGyroskopMessage s g sf mf mid) := by
  unfold sendGyroskopMessage
  by_cases hsf : sf = true
  · rw [if_pos hsf]
    exact ⟨hids, hpw, hopen⟩
  · rw [if_neg hsf]
    by_cases hmf : mf = true
    · rw [if_pos hmf]
      exact ⟨hids, hpw, fun w hw hwo => hopen w hw hwo⟩
    · rw [if_neg hmf]
      refine ⟨ids_lt_map _ _ _ (fun w => by split_ifs <;> rfl) hids,
        pairwise_ids_map _ _ (fun w => by split_ifs <;> rfl) hpw, ?_⟩
      intro w hw hwo
      rcases List.mem_map.1 hw with ⟨a, ha, rfl⟩
      by_cases hai : a.id = g.id
      · rw [if_pos hai] at hwo ⊢
        exact hai
      · rw [if_neg hai] at hwo ⊢
        exact hopen a ha hwo

theorem inv_handleNewGyroskop (s : GroupState) (hInv : Inv s)
    (req : Int) (args : String) (now : Nat) (cf sf mf : Bool) (mid : Nat) :
    Inv (handleNewGyroskop s req args now cf sf mf mid).2 := by
  obtain ⟨h1, h2, h3⟩ := hInv
  rcases hc : s.cache with _ | g0
  · rcases hd : parseDeadline args now with _ | d
    · simp only [handleNewGyroskop, hc, hd]
      exact ⟨h1, h2, h3⟩
    · simp only [handleNewGyroskop, hc, hd]
      by_cases hcf : cf = true
      · rw [if_pos hcf]
        exact ⟨h1, h2, h3⟩
      · rw [if_neg hcf]
        have h3c : ∀ w ∈ s.store, w.isOpen = false := by
          rw [hc] at h3
          exact h3
        apply inv_sendGyroskopMessage
        · intro w hw
          rcases List.mem_append.1 hw with hw2 | hw2
          · exact Nat.lt_succ_of_lt (h1 w hw2)
          · rw [List.mem_singleton.1 hw2]
            exact Nat.lt_succ_self _
        · rw [List.pairwise_append]
          refine ⟨h2, List.pairwise_singleton _ _, ?_⟩
          intro a ha b hb
          rw [List.mem_singleton.1 hb]
          exact Nat.ne_of_lt (h1 a ha)
        · intro w hw hwo
          rcases List.mem_append.1 hw with hw2 | hw2
          · rw [h3c w hw2] at hwo
            cases hwo
          · rw [List.mem_singleton.1 hw2]
  · simp only [handleNewGyroskop, hc]
    exact ⟨h1, h2, h3⟩

theorem inv_handleReopenGyroskop (s : GroupState) (hInv : Inv s)
    (req : Int) (rid : Nat) (args : String) (now : Nat) (rf sf mf : Bool)
    (mid : Nat) : Inv (handleReopenGyroskop s req rid args now rf sf mf mid).2 := by
  obtain ⟨h1, h2, h3⟩ := hInv
  rcases hfind : s.store.find? (fun w => decide (w.messageID = rid)) with _ | g
  · simp only [handleReopenGyroskop, hfind]
    exact ⟨h1, h2, h3⟩
  · by_cases hcr : g.createdBy ≠ req
    · simp only [handleReopenGyroskop, hfind]
      rw [if_pos hcr]
      exact ⟨h1, h2, h3⟩
    · rcases hc : s.cache with _ | g0
      · rcases hd : parseDeadline args now with _ | d
        · simp only [handleReopenGyroskop, hfind, hc, hd]
          rw [if_neg hcr]
          exact ⟨h1, h2, h3⟩
        · simp only [handleReopenGyroskop, hfind, hc, hd]
          rw [if_neg hcr]
          by_cases hrf : rf = true
          · rw [if_pos hrf]
            exact ⟨h1, h2, h3⟩
          · rw [if_neg hrf]
            have h3c : ∀ w ∈ s.store, w.isOpen = false := by
              rw [hc] at h3
              exact h3
            apply inv_sendGyroskopMessage
            · exact ids_lt_map _ _ _ (fun w => by split_ifs <;> rfl) h1
            · exact pairwise_ids_map _ _ (fun w => by split_ifs <;> rfl) h2
            · intro w hw hwo
              rcases List.mem_map.1 hw with ⟨a, ha, rfl⟩
              by_cases hai : a.id = g.id
              · rw [if_pos hai] at hwo ⊢
                exact hai
              · rw [if_neg hai] at hwo
                rw [h3c a ha] at hwo
                cases hwo
      · simp only [handleReopenGyroskop, hfind, hc]
        rw [if_neg hcr]
        exact ⟨h1, h2, h3⟩

theorem inv_closeGyroskop (s : GroupState) (g : Gyroskop)
    (rawOrders : List Order) (f1 f2 : Bool) (hInv : Inv s)
    (hg : s.cache = some g) : Inv (closeGyroskop s g rawOrders f1 f2).2 := by
  obtain ⟨h1, h2, h3⟩ := hInv
  simp only [closeGyroskop]
  by_cases hf1 : f1 = true
  · rw [if_pos hf1]
    exact ⟨h1, h2, h3⟩
  · rw [if_neg hf1]
    by_cases hf2 : f2 = true
    · rw [if_pos hf2]
      exact ⟨h1, h2, h3⟩
    · rw [if_neg hf2]
      have hsome : ∀ w ∈ s.store, w.isOpen = true → w.id = g.id := by
        rw [hg] at h3
        exact h3
      refine ⟨ids_lt_map _ _ _ (fun w => by split_ifs <;> rfl) h1,
        pairwise_ids_map _ _ (fun w => by split_ifs <;> rfl) h2, ?_⟩
      intro w hw
      rcases List.mem_map.1 hw with ⟨a, ha, rfl⟩
      by_cases hai : a.id = g.id
      · rw [if_pos hai]
      · rw [if_neg hai]
        rcases hao : a.isOpen with _ | _
        · rfl
        · exact absurd (hsome a ha hao) hai

/-- C1: at most one window row per group is ever flagged open, and the
state machine keeps it so through its cache check: a create request
while any window is cached returns the conflict reply with the state
untouched; a reopen request while any window is cached likewise changes
nothing (and returns the conflict reply once the replied-to window is
found and the requester is its creator); and create, reopen and close
each preserve the consistency invariant `Inv`. -/
theorem at_most_one_open_window (s : GroupState) (hInv : Inv s) :
    openCount s.store ≤ 1 ∧
    (∀ req args now cf sf mf mid, s.cache.isSome →
      handleNewGyroskop s req args now cf sf mf mid = (.conflict, s)) ∧
    (∀ req rid args now rf sf mf mid g, s.cache.isSome →
      s.store.find? (fun w => decide (w.messageID = rid)) = some g →
      g.createdBy = req →
      handleReopenGyroskop s req rid args now rf sf mf mid = (.conflict, s)) ∧
    (∀ req rid args now rf sf mf mid, s.cache.isSome →
      (handleReopenGyroskop s req rid args now rf sf mf mid).2 = s) ∧
    (∀ req args now cf sf mf mid,
      Inv (handleNewGyroskop s req args now cf sf mf mid).2) ∧
    (∀ req rid args now rf sf mf mid,
      Inv (handleReopenGyroskop s req rid args now rf sf mf mid).2) ∧
    (∀ g rawOrders f1 f2, s.cache = some g →
      Inv (closeGyroskop s g rawOrders f1 f2).2) := by
  refine ⟨openCount_le_one_of_inv s hInv, ?_, ?_, ?_,
    fun req args now cf sf mf mid => inv_handleNewGyroskop s hInv req args now cf sf mf mid,
    fun req rid args now rf sf mf mid => inv_handleReopenGyroskop s hInv req rid args now rf sf mf mid,
    fun g rawOrders f1 f2 hg => inv_closeGyroskop s g rawOrders f1 f2 hInv hg⟩
  · intro req args now cf sf mf mid hs
    rcases Option.isSome_iff_exists.1 hs with ⟨g0, hg0⟩
    simp only [handleNewGyroskop]
    rw [hg0]
  · intro req rid args now rf sf mf mid g hs hfind hcreator
    rcases Option.isSome_iff_exists.1 hs with ⟨g0, hg0⟩
    simp only [handleReopenGyroskop, hfind]
    rw [if_neg (fun hne => hne hcreator), hg0]
  · intro req rid args now rf sf mf mid hs
    rcases Option.isSome_iff_exists.1 hs with ⟨g0, hg0⟩
    rcases hfind : s.store.find? (fun w => decide (w.messageID = rid)) with _ | g
    · simp only [handleReopenGyroskop, hfind]
    · simp only [handleReopenGyroskop, hfind]
      by_cases hcr : g.createdBy ≠ req
      · rw [if_pos hcr]
      · rw [if_neg hcr, hg0]

/-- Concrete instantiation of `at_most_one_open_window`: with a cached
open window, a second create request returns the conflict reply and
leaves the state unchanged. -/
theorem at_most_one_open_window_witness :
    handleNewGyroskop demoStateOpen 0 "" 0 false false false 7 =
      (BotReply.conflict, demoStateOpen) :=
  (at_most_one_open_window demoStateOpen
      ⟨by decide, by decide,
        show ∀ w ∈ demoStateOpen.store, w.isOpen = true → w.id = demoWindow.id
          by decide⟩).2.1 0 "" 0 false false false 7 (by decide)

end GyroskopBot
